import Mathlib

/-!
# Verification of the dashboard aggregation core

Shallow embedding of `src/dashboard/dashboard.py`.

Modelling conventions:
* A pandas `DataFrame` of order lines is a `List OrderLine`; the orders table is a
  `List OrderRow`.  Column values keep the source column names as field names.
* Timestamps are integers (seconds); a parse failure (`NaT`) is `none`.
  Calendar days are obtained by flooring with `Int.fdiv · 86400`, matching
  day-truncation of timestamps; midnight of day `d` is `d * 86400`.
* Prices are integers (the claims under study never divide prices).
* `groupby` sorts its group keys ascending and drops rows whose key is null
  (pandas defaults `sort=True`, `dropna=True`); it is modelled by sorting the
  deduplicated key list with `List.insertionSort strLeP`, where `strLeP` is a
  computable dictionary order proven equal to `≤` on `String`.
* `Series.sort_values(ascending=False)` sorts by descending count; pandas
  leaves the relative order of tied values unspecified for the default
  `quicksort` kernel, so the embedding fixes one deterministic representative
  (a stable descending insertion sort).  No general theorem below relies on
  the representative's tie order — only on descending counts and on content,
  which are kernel-independent; tie order is appealed to only at concrete
  two-element inputs, where numpy's default kernel is its (stable) insertion
  sort and the representative provably matches it.
* Comparisons against `NaT` are `False`, `max`/aggregation skip `NaT`, and the
  `max` of an empty or all-`NaT` column is `NaT` (`none`).
-/

/-- An order-line (fact) row of `all_df`. -/
structure OrderLine where
  order_id : String
  customer_id : String
  customer_state : String
  product_category_name_english : Option String
  order_purchase_timestamp : Option Int
  price : Int
  deriving DecidableEq, Repr

/-- A row of the orders table `orders_df` (only the column the core reads). -/
structure OrderRow where
  order_id : String
  order_purchase_timestamp : Option Int
  deriving DecidableEq, Repr

/-- Calendar day of a timestamp: floor of seconds over 86400. -/
def dayOf (t : Int) : Int := Int.fdiv t 86400

/-- Lines 77-78: `main_df = all_df[(ts >= pd.to_datetime(start_date)) &
(ts <= pd.to_datetime(end_date))]`.  `start_date`/`end_date` are calendar
dates, so `pd.to_datetime` yields midnight of those days; a `NaT` timestamp
compares `False` on both sides and the row is dropped. -/
def main_df (all_df : List OrderLine) (start_date end_date : Int) : List OrderLine :=
  all_df.filter (fun r =>
    match r.order_purchase_timestamp with
    | some t => decide (start_date * 86400 ≤ t) && decide (t ≤ end_date * 86400)
    | none => false)

/-- Computable lexicographic comparison of char lists (true iff the first is
less than or equal to the second in dictionary order). -/
def charListLe : List Char → List Char → Bool
  | [], _ => true
  | _ :: _, [] => false
  | a :: as, b :: bs =>
    if a < b then true else if b < a then false else charListLe as bs

/-- Computable dictionary order on strings; proven below to agree with the
order `≤` on `String`, the order in which pandas sorts string group keys. -/
def strLeP (a b : String) : Prop := charListLe a.data b.data = true

instance : DecidableRel strLeP := fun a b => Bool.decEq (charListLe a.data b.data) true

/-- Ascending deduplicated key list: how `groupby(sort=True)` orders its groups. -/
def sortedKeys (l : List String) : List String :=
  List.insertionSort strLeP l.dedup

/-- Derived row of `daily_orders_df` (after `reset_index` the day keeps the
column name `order_purchase_timestamp`; `order_id` was renamed `order_count`
and `price` renamed `revenue`). -/
structure DailyMetric where
  order_purchase_timestamp : Int
  order_count : Nat
  revenue : Int
  deriving DecidableEq, Repr

/-- The day numbers of all rows with a non-null timestamp. -/
def days (df : List OrderLine) : List Int :=
  df.filterMap (fun r => r.order_purchase_timestamp.map dayOf)

/-- The closed integer interval `[a, b]` as a list. -/
def rangeInt (a b : Int) : List Int :=
  (List.range (b + 1 - a).toNat).map (fun i : Nat => a + (i : Int))

/-- The rows whose (non-null) timestamp falls on day `d`. -/
def dayBucket (df : List OrderLine) (d : Int) : List OrderLine :=
  df.filter (fun r =>
    match r.order_purchase_timestamp with
    | some t => decide (dayOf t = d)
    | none => false)

/-- Lines 9-21: `df.resample(rule='D', on='order_purchase_timestamp').agg(
{"order_id": "nunique", "price": "sum"})`.  `resample` drops `NaT` rows and
then emits one bin for EVERY day from the earliest to the latest day present,
including empty bins (`nunique` 0, `sum` 0); with no non-null timestamp the
result is empty. -/
def create_daily_orders_df (df : List OrderLine) : List DailyMetric :=
  match (days df).min?, (days df).max? with
  | some dmin, some dmax =>
      (rangeInt dmin dmax).map (fun d =>
        { order_purchase_timestamp := d
          order_count := ((dayBucket df d).map (fun r => r.order_id)).dedup.length
          revenue := ((dayBucket df d).map (fun r => r.price)).sum })
  | _, _ => []

/-- Derived row of `sum_order_items_df` (after `reset_index` the count column
keeps the name `order_id`). -/
structure CategoryMetric where
  product_category_name_english : String
  order_id : Nat
  deriving DecidableEq, Repr

/-- The rows whose category equals `c`. -/
def catRows (df : List OrderLine) (c : String) : List OrderLine :=
  df.filter (fun r => decide (r.product_category_name_english = some c))

/-- Descending-count preorder used by `sort_values(ascending=False)` on the
category counts. -/
def catDesc (x y : CategoryMetric) : Prop := y.order_id ≤ x.order_id

instance : DecidableRel catDesc := fun x y => Nat.decLe y.order_id x.order_id

instance : IsTotal CategoryMetric catDesc :=
  ⟨fun x y => Nat.le_total y.order_id x.order_id⟩

instance : IsTrans CategoryMetric catDesc :=
  ⟨fun _ _ _ hab hbc => le_trans hbc hab⟩

/-- Lines 24-26: `df.groupby("product_category_name_english").order_id.count()
.sort_values(ascending=False).reset_index()`.  `groupby` drops rows with a
null category and sorts the surviving keys ascending; `count` counts the rows
of each group (`order_id` is never null); `sort_values(ascending=False)` then
orders by descending count.  Its tie order under the default kernel is
unspecified by pandas; the embedding fixes a deterministic representative (a
stable descending insertion sort over the key-ascending grouped list), which
is exactly what the default kernel computes on the concrete two-element
inputs considered below. -/
def create_sum_order_items_df (df : List OrderLine) : List CategoryMetric :=
  List.insertionSort catDesc
    ((sortedKeys (df.filterMap (fun r => r.product_category_name_english))).map
      (fun c => { product_category_name_english := c, order_id := (catRows df c).length }))

/-- Derived row of `bystate_df` (`customer_id` renamed `customer_count`). -/
structure StateMetric where
  customer_state : String
  customer_count : Nat
  deriving DecidableEq, Repr

/-- The rows whose state equals `s`. -/
def stateRows (df : List OrderLine) (s : String) : List OrderLine :=
  df.filter (fun r => decide (r.customer_state = s))

/-- Lines 29-32: `df.groupby(by="customer_state").customer_id.nunique()
.reset_index()`: one row per state (keys ascending), counting distinct
customer ids in that state. -/
def create_bystate_df (df : List OrderLine) : List StateMetric :=
  (sortedKeys (df.map (fun r => r.customer_state))).map
    (fun s => { customer_state := s
                customer_count := ((stateRows df s).map (fun r => r.customer_id)).dedup.length })

/-- Derived row of `rfm_df` after the renames of line 42 and the `recency`
column of line 49. -/
structure RfmRecord where
  customer_id : String
  max_order_timestamp : Option Int
  frequency : Nat
  monetary : Int
  recency : Option Int
  deriving DecidableEq, Repr

/-- Applying `pd.to_datetime` to an already-parsed (datetime-or-`NaT`) value
is the identity; in this embedding every stored timestamp is already parsed
(`dashboard.py` parses both tables at load, lines 61-63). -/
def to_datetime (t : Option Int) : Option Int := t

/-- The rows whose customer id equals `c`. -/
def custRows (df : List OrderLine) (c : String) : List OrderLine :=
  df.filter (fun r => decide (r.customer_id = c))

/-- Line 45: `orders_df["order_purchase_timestamp"] = pd.to_datetime(...)`,
the in-place reassignment of the (already parsed, line 63) timestamp column
of the caller's orders relation. -/
def ordersParsed (orders_df : List OrderRow) : List OrderRow :=
  orders_df.map (fun r =>
    { r with order_purchase_timestamp := to_datetime r.order_purchase_timestamp })

/-- Line 48: `recent_date = orders_df["order_purchase_timestamp"].max()`,
computed over the (re-parsed) orders relation; `max` skips `NaT` and is `NaT`
(`none`) on an empty or all-`NaT` column. -/
def recentDate (orders_df : List OrderRow) : Option Int :=
  ((ordersParsed orders_df).filterMap (fun r => r.order_purchase_timestamp)).max?

/-- Lines 37-44: a customer's `max_order_timestamp`, the max of the non-null
timestamps of their rows (`NaT` if there is none), re-parsed by line 44. -/
def custLast (df : List OrderLine) (c : String) : Option Int :=
  to_datetime (((custRows df c).filterMap (fun r => r.order_purchase_timestamp)).max?)

/-- Lines 35-51, in state-passing style because line 45 assigns the re-parsed
timestamp column back onto the caller's `orders_df`: the second component is
the orders relation as left behind by the call.  Per customer (keys ascending):
max non-null timestamp (`none` if the customer has none), distinct-order
count, summed price, and `recency = (recent_date - max_order_timestamp).dt.days`
with `recent_date` the max over the orders argument; `.dt.days` floors, and a
`NaT` on either side gives a null recency. -/
def create_rfm_df (df : List OrderLine) (orders_df : List OrderRow) :
    List RfmRecord × List OrderRow :=
  (((sortedKeys (df.map (fun r => r.customer_id))).map (fun c =>
      { customer_id := c
        max_order_timestamp := custLast df c
        frequency := (((custRows df c).map (fun r => r.order_id)).dedup).length
        monetary := ((custRows df c).map (fun r => r.price)).sum
        recency := match recentDate orders_df, custLast df c with
          | some g, some l => some (Int.fdiv (g - l) 86400)
          | _, _ => none })),
   ordersParsed orders_df)

/-- The Time Window Filter as the spec words it: membership decided at day
granularity, both ends inclusive (compared against the row's calendar day,
not its full timestamp). -/
def inWindowByDay (s e : Int) (r : OrderLine) : Bool :=
  match r.order_purchase_timestamp with
  | some t => decide (s ≤ dayOf t) && decide (dayOf t ≤ e)
  | none => false

/-- Deduplication keeping the FIRST occurrence of each value, i.e. the order
in which distinct values are first observed in the input. -/
def firstDedup {α : Type _} [DecidableEq α] : List α → List α
  | [] => []
  | a :: l => a :: (firstDedup l).filter (fun b => decide (b ≠ a))

/-- The Category Ranking as the spec words it: count lines per distinct
category in first-observation order, then stable-sort descending by count so
that ties keep first-observation order. -/
def specCategoryRanking (df : List OrderLine) : List CategoryMetric :=
  List.insertionSort catDesc
    ((firstDedup (df.filterMap (fun r => r.product_category_name_english))).map
      (fun c => { product_category_name_english := c, order_id := (catRows df c).length }))

/-- A copied relation in which every purchase timestamp has been nulled out;
used to state that the category/state/customer groupings do not read the
timestamp column. -/
def clearTs (df : List OrderLine) : List OrderLine :=
  df.map (fun r => { r with order_purchase_timestamp := none })

/-- Shorthand for building concrete fact rows. -/
def mkLine (oid cid st : String) (cat : Option String) (ts : Option Int) (p : Int) :
    OrderLine :=
  { order_id := oid, customer_id := cid, customer_state := st,
    product_category_name_english := cat, order_purchase_timestamp := ts, price := p }

/-- A line at 01:00 on day 0 (inside the end date, after its midnight). -/
def rowLateOnEnd : OrderLine := mkLine "A" "c1" "SP" (some "a") (some 3600) 10

/-- A line whose timestamp failed to parse. -/
def rowNullTs : OrderLine := mkLine "A" "c1" "SP" (some "a") none 10

/-- Activity on day 0 and day 2, nothing on day 1. -/
def dfGap : List OrderLine :=
  [mkLine "A" "c1" "SP" (some "a") (some 0) 10,
   mkLine "B" "c1" "SP" (some "a") (some 172800) 20]

/-- A single line with a null category. -/
def rowNullCat : OrderLine := mkLine "A" "c1" "SP" none (some 0) 10

/-- Two tied categories, category "b" observed before category "a". -/
def dfTie : List OrderLine :=
  [mkLine "A" "c1" "SP" (some "b") (some 0) 10,
   mkLine "B" "c2" "SP" (some "a") (some 0) 20]

/-- One order id with lines on two different calendar days. -/
def dfTwoDays : List OrderLine :=
  [mkLine "A" "c1" "SP" (some "a") (some 0) 10,
   mkLine "A" "c1" "SP" (some "a") (some 86400) 20]

/-- A customer whose last purchase (day 3) is newer than the orders-table
maximum (day 1): the recency difference is negative. -/
def df6 : List OrderLine := [mkLine "A" "c1" "SP" (some "a") (some 259200) 10]

/-- Orders table whose max timestamp is day 1. -/
def orders6 : List OrderRow :=
  [{ order_id := "A", order_purchase_timestamp := some 86400 }]

/-- The record `create_rfm_df df6 orders6` emits for customer "c1". -/
def rfm6rec : RfmRecord :=
  { customer_id := "c1", max_order_timestamp := some 259200, frequency := 1,
    monetary := 10, recency := some (-2) }

/-- Order "A" has two lines on day 0; order "B" one line on day 1. -/
def df7 : List OrderLine :=
  [mkLine "A" "c1" "SP" (some "a") (some 0) 10,
   mkLine "A" "c1" "SP" (some "a") (some 3600) 20,
   mkLine "B" "c2" "RJ" (some "b") (some 86400) 5]

/-! ## Helper lemmas: `List.min?` / `List.max?` over `Int` -/

theorem foldl_min_le_init (l : List Int) (a : Int) : l.foldl min a ≤ a := by
  induction l generalizing a with
  | nil => exact le_refl a
  | cons x xs ih => exact le_trans (ih (min a x)) (min_le_left a x)

theorem foldl_min_le_mem (l : List Int) (a b : Int) (hb : b ∈ l) : l.foldl min a ≤ b := by
  induction l generalizing a with
  | nil => cases hb
  | cons x xs ih =>
    rcases List.mem_cons.mp hb with rfl | hb
    · exact le_trans (foldl_min_le_init xs (min a b)) (min_le_right a b)
    · exact ih (min a x) hb

theorem foldl_min_mem (l : List Int) (a : Int) : l.foldl min a = a ∨ l.foldl min a ∈ l := by
  induction l generalizing a with
  | nil => exact Or.inl rfl
  | cons x xs ih =>
    rcases ih (min a x) with h | h
    · rcases min_choice a x with h2 | h2
      · exact Or.inl (by rw [List.foldl_cons, h, h2])
      · exact Or.inr (by rw [List.foldl_cons, h, h2]; exact List.mem_cons_self x xs)
    · exact Or.inr (List.mem_cons_of_mem x h)

theorem min?_spec {l : List Int} {a : Int} (h : l.min? = some a) :
    a ∈ l ∧ ∀ b ∈ l, a ≤ b := by
  cases l with
  | nil => cases h
  | cons x xs =>
    have ha : xs.foldl min x = a := by injection h
    constructor
    · rcases foldl_min_mem xs x with h2 | h2
      · rw [← ha, h2]; exact List.mem_cons_self x xs
      · rw [← ha]; exact List.mem_cons_of_mem x h2
    · intro b hb
      rcases List.mem_cons.mp hb with rfl | hb
      · rw [← ha]; exact foldl_min_le_init xs b
      · rw [← ha]; exact foldl_min_le_mem xs x b hb

theorem foldl_max_init_le (l : List Int) (a : Int) : a ≤ l.foldl max a := by
  induction l generalizing a with
  | nil => exact le_refl a
  | cons x xs ih => exact le_trans (le_max_left a x) (ih (max a x))

theorem foldl_max_mem_le (l : List Int) (a b : Int) (hb : b ∈ l) : b ≤ l.foldl max a := by
  induction l generalizing a with
  | nil => cases hb
  | cons x xs ih =>
    rcases List.mem_cons.mp hb with rfl | hb
    · exact le_trans (le_max_right a b) (foldl_max_init_le xs (max a b))
    · exact ih (max a x) hb

theorem foldl_max_mem (l : List Int) (a : Int) : l.foldl max a = a ∨ l.foldl max a ∈ l := by
  induction l generalizing a with
  | nil => exact Or.inl rfl
  | cons x xs ih =>
    rcases ih (max a x) with h | h
    · rcases max_choice a x with h2 | h2
      · exact Or.inl (by rw [List.foldl_cons, h, h2])
      · exact Or.inr (by rw [List.foldl_cons, h, h2]; exact List.mem_cons_self x xs)
    · exact Or.inr (List.mem_cons_of_mem x h)

theorem max?_spec {l : List Int} {a : Int} (h : l.max? = some a) :
    a ∈ l ∧ ∀ b ∈ l, b ≤ a := by
  cases l with
  | nil => cases h
  | cons x xs =>
    have ha : xs.foldl max x = a := by injection h
    constructor
    · rcases foldl_max_mem xs x with h2 | h2
      · rw [← ha, h2]; exact List.mem_cons_self x xs
      · rw [← ha]; exact List.mem_cons_of_mem x h2
    · intro b hb
      rcases List.mem_cons.mp hb with rfl | hb
      · rw [← ha]; exact foldl_max_init_le xs b
      · rw [← ha]; exact foldl_max_mem_le xs x b hb

theorem min?_eq_none_iff {l : List Int} : l.min? = none ↔ l = [] := by
  cases l <;> simp [List.min?]

theorem max?_eq_none_iff {l : List Int} : l.max? = none ↔ l = [] := by
  cases l <;> simp [List.max?]

/-! ## Helper lemmas: sorted group keys -/

theorem charListLe_iff : ∀ (x y : List Char), charListLe x y = true ↔ ¬ List.lt y x := by
  intro x
  induction x with
  | nil =>
    intro y
    constructor
    · intro _ h
      cases h
    · intro _
      rfl
  | cons a as ih =>
    intro y
    cases y with
    | nil =>
      constructor
      · intro h
        exact Bool.noConfusion h
      · intro h
        exact absurd (List.lt.nil a as) h
    | cons b bs =>
      show (if a < b then true else if b < a then false else charListLe as bs) = true
        ↔ ¬ List.lt (b :: bs) (a :: as)
      by_cases hab : a < b
      · rw [if_pos hab]
        constructor
        · intro _ h
          cases h with
          | head _ _ h2 => exact absurd h2 (lt_asymm hab)
          | tail h2 h3 _ => exact h3 hab
        · intro _
          rfl
      · rw [if_neg hab]
        by_cases hba : b < a
        · rw [if_pos hba]
          constructor
          · intro h
            exact Bool.noConfusion h
          · intro h
            exact absurd (List.lt.head bs as hba) h
        · rw [if_neg hba, ih bs]
          constructor
          · intro h hlt
            cases hlt with
            | head _ _ h2 => exact hba h2
            | tail h2 h3 h4 => exact h h4
          · intro h hlt
            exact h (List.lt.tail hba hab hlt)

theorem strLeP_iff (a b : String) : strLeP a b ↔ a ≤ b := by
  unfold strLeP
  rw [charListLe_iff]
  constructor
  · intro h hba
    have h1 : b.toList < a.toList := String.lt_iff_toList_lt.mp hba
    have h2 : List.Lex (· < ·) b.data a.data := h1
    exact h ((List.lt_iff_lex_lt b.data a.data).mpr h2)
  · intro h hba
    have h1 : List.Lex (· < ·) b.data a.data := (List.lt_iff_lex_lt b.data a.data).mp hba
    have h2 : b.toList < a.toList := h1
    exact h (String.lt_iff_toList_lt.mpr h2)

theorem strLeP_total (a b : String) : strLeP a b ∨ strLeP b a := by
  rcases le_total a b with h | h
  · exact Or.inl ((strLeP_iff a b).mpr h)
  · exact Or.inr ((strLeP_iff b a).mpr h)

theorem strLeP_trans (a b c : String) (h1 : strLeP a b) (h2 : strLeP b c) : strLeP a c :=
  (strLeP_iff a c).mpr (le_trans ((strLeP_iff a b).mp h1) ((strLeP_iff b c).mp h2))

theorem mem_sortedKeys {l : List String} {a : String} : a ∈ sortedKeys l ↔ a ∈ l := by
  unfold sortedKeys
  rw [List.mem_insertionSort]
  exact List.mem_dedup

theorem sortedKeys_nodup (l : List String) : (sortedKeys l).Nodup :=
  ((List.perm_insertionSort _ _).nodup_iff).mpr (List.nodup_dedup l)

theorem sortedKeys_sorted (l : List String) : List.Pairwise strLeP (sortedKeys l) :=
  @List.sorted_insertionSort String strLeP _ ⟨strLeP_total⟩ ⟨strLeP_trans⟩ l.dedup

theorem sortedKeys_sorted_le (l : List String) : List.Pairwise (· ≤ ·) (sortedKeys l) :=
  (sortedKeys_sorted l).imp (fun h => (strLeP_iff _ _).mp h)

theorem sortedKeys_strict (l : List String) : List.Pairwise (· < ·) (sortedKeys l) :=
  ((sortedKeys_sorted_le l).and (sortedKeys_nodup l)).imp
    (fun h => lt_of_le_of_ne h.1 h.2)

/-! ## Helper lemmas: the daily range and day buckets -/

theorem rangeInt_pairwise (a b : Int) : List.Pairwise (· < ·) (rangeInt a b) := by
  unfold rangeInt
  refine List.Pairwise.map _ ?_ (List.pairwise_lt_range _)
  intro i j h
  show a + (i : Int) < a + (j : Int)
  omega

theorem mem_rangeInt {a b d : Int} : d ∈ rangeInt a b ↔ a ≤ d ∧ d ≤ b := by
  unfold rangeInt
  simp only [List.mem_map, List.mem_range]
  constructor
  · rintro ⟨i, hi, rfl⟩
    constructor
    · show a ≤ a + (i : Int)
      omega
    · show a + (i : Int) ≤ b
      omega
  · rintro ⟨h1, h2⟩
    refine ⟨(d - a).toNat, ?_, ?_⟩
    · omega
    · show a + ((d - a).toNat : Int) = d
      omega

theorem mem_days {df : List OrderLine} {x : Int} :
    x ∈ days df ↔ ∃ r, r ∈ df ∧ r.order_purchase_timestamp.map dayOf = some x := by
  unfold days
  exact List.mem_filterMap

theorem mem_dayBucket {df : List OrderLine} {d : Int} {r : OrderLine} :
    r ∈ dayBucket df d ↔ r ∈ df ∧ r.order_purchase_timestamp.map dayOf = some d := by
  unfold dayBucket
  rw [List.mem_filter]
  constructor
  · rintro ⟨hmem, hcond⟩
    refine ⟨hmem, ?_⟩
    have hcond2 : (match r.order_purchase_timestamp with
        | some t => decide (dayOf t = d)
        | none => false) = true := hcond
    cases hts : r.order_purchase_timestamp with
    | none => rw [hts] at hcond2; exact Bool.noConfusion hcond2
    | some t =>
      rw [hts] at hcond2
      rw [Option.map_some']
      exact congrArg some (of_decide_eq_true hcond2)
  · rintro ⟨hmem, hcond⟩
    refine ⟨hmem, ?_⟩
    show (match r.order_purchase_timestamp with
        | some t => decide (dayOf t = d)
        | none => false) = true
    cases hts : r.order_purchase_timestamp with
    | none => rw [hts] at hcond; exact Option.noConfusion hcond
    | some t =>
      rw [hts, Option.map_some'] at hcond
      exact decide_eq_true (Option.some.inj hcond)

/-! ## Helper lemmas: partition counting for the category ranking -/

theorem length_filter_disjoint {α : Type _} (l : List α) (p q : α → Bool)
    (h : ∀ a ∈ l, ¬(p a = true ∧ q a = true)) :
    (l.filter (fun a => p a || q a)).length = (l.filter p).length + (l.filter q).length := by
  induction l with
  | nil => rfl
  | cons x xs ih =>
    have hx := h x (List.mem_cons_self x xs)
    have ihx := ih (fun a ha => h a (List.mem_cons_of_mem x ha))
    cases hp : p x with
    | false =>
      cases hq : q x with
      | false => simp [List.filter_cons, hp, hq, ihx] <;> omega
      | true => simp [List.filter_cons, hp, hq, ihx] <;> omega
    | true =>
      cases hq : q x with
      | false => simp [List.filter_cons, hp, hq, ihx] <;> omega
      | true => exact absurd ⟨hp, hq⟩ hx

theorem sum_keys_counts (df : List OrderLine) :
    ∀ keys : List String, keys.Nodup →
      ((keys.map (fun c => (catRows df c).length)).sum)
        = (df.filter (fun r =>
            match r.product_category_name_english with
            | some c => decide (c ∈ keys)
            | none => false)).length := by
  intro keys hk
  induction keys with
  | nil =>
    symm
    rw [List.map_nil, List.sum_nil, List.length_eq_zero, List.filter_eq_nil]
    intro r _
    show ¬((match r.product_category_name_english with
        | some c => decide (c ∈ ([] : List String))
        | none => false) = true)
    cases r.product_category_name_english <;> simp
  | cons k ks ih =>
    have hknotin : k ∉ ks := (List.nodup_cons.mp hk).1
    have ihk := ih (List.nodup_cons.mp hk).2
    have hsplit := length_filter_disjoint df
      (fun r => decide (r.product_category_name_english = some k))
      (fun r =>
        match r.product_category_name_english with
        | some c => decide (c ∈ ks)
        | none => false)
      (by
        intro r _
        rintro ⟨h1, h2⟩
        have hcat : r.product_category_name_english = some k := of_decide_eq_true h1
        have h2b : (match r.product_category_name_english with
            | some c => decide (c ∈ ks)
            | none => false) = true := h2
        rw [hcat] at h2b
        exact hknotin (of_decide_eq_true h2b))
    have hcongr : (df.filter (fun r =>
          decide (r.product_category_name_english = some k) ||
            match r.product_category_name_english with
            | some c => decide (c ∈ ks)
            | none => false))
        = (df.filter (fun r =>
            match r.product_category_name_english with
            | some c => decide (c ∈ k :: ks)
            | none => false)) := by
      apply List.filter_congr
      intro r _
      show (decide (r.product_category_name_english = some k) ||
            match r.product_category_name_english with
            | some c => decide (c ∈ ks)
            | none => false)
          = (match r.product_category_name_english with
            | some c => decide (c ∈ k :: ks)
            | none => false)
      cases hc : r.product_category_name_english with
      | none => simp
      | some c => simp [List.mem_cons, eq_comm]
    rw [List.map_cons, List.sum_cons, ihk, ← hcongr, hsplit]
    rfl

/-! ## Helper lemmas: the orders relation is value-unchanged by re-parsing -/

theorem ordersParsed_eq (orders_df : List OrderRow) : ordersParsed orders_df = orders_df := by
  unfold ordersParsed
  induction orders_df with
  | nil => rfl
  | cons r rs ih => rw [List.map_cons, ih]; rfl

theorem recentDate_eq (orders_df : List OrderRow) :
    recentDate orders_df
      = (orders_df.filterMap (fun r => r.order_purchase_timestamp)).max? := by
  unfold recentDate
  rw [ordersParsed_eq]

/-! ## Helper lemmas: the groupings do not read the timestamp column -/

theorem clearTs_filterMap_cat (df : List OrderLine) :
    (clearTs df).filterMap (fun r => r.product_category_name_english)
      = df.filterMap (fun r => r.product_category_name_english) :=
  List.filterMap_map _ _ _

theorem clearTs_map_state (df : List OrderLine) :
    (clearTs df).map (fun r => r.customer_state) = df.map (fun r => r.customer_state) :=
  List.map_map _ _ _

theorem clearTs_map_customer (df : List OrderLine) :
    (clearTs df).map (fun r => r.customer_id) = df.map (fun r => r.customer_id) :=
  List.map_map _ _ _

theorem clearTs_catRows_length (df : List OrderLine) (c : String) :
    (catRows (clearTs df) c).length = (catRows df c).length := by
  unfold catRows clearTs
  rw [List.filter_map, List.length_map]
  rfl

theorem clearTs_stateRows_ids (df : List OrderLine) (s : String) :
    (stateRows (clearTs df) s).map (fun r => r.customer_id)
      = (stateRows df s).map (fun r => r.customer_id) := by
  unfold stateRows clearTs
  rw [List.filter_map, List.map_map]
  rfl

theorem rfm_customer_ids (df : List OrderLine) (orders : List OrderRow) :
    (create_rfm_df df orders).1.map (fun m => m.customer_id)
      = sortedKeys (df.map (fun r => r.customer_id)) := by
  show ((sortedKeys (df.map (fun r => r.customer_id))).map (fun c =>
      ({ customer_id := c
         max_order_timestamp := custLast df c
         frequency := (((custRows df c).map (fun r => r.order_id)).dedup).length
         monetary := ((custRows df c).map (fun r => r.price)).sum
         recency := match recentDate orders, custLast df c with
           | some g, some l => some (Int.fdiv (g - l) 86400)
           | _, _ => none } : RfmRecord))).map (fun m => m.customer_id)
    = sortedKeys (df.map (fun r => r.customer_id))
  rw [List.map_map]
  exact List.map_id' _

/-! ## Claims -/

/-- C1, counterexample: a line at 01:00 on the `end` day satisfies the
day-granularity window of the claim, yet the code's filter drops it (the
comparison is against midnight of `end` at full timestamp granularity). -/
theorem C1_counterexample_end_day_line_excluded :
    inWindowByDay 0 0 rowLateOnEnd = true
    ∧ rowLateOnEnd ∉ main_df [rowLateOnEnd] 0 0 := by
  constructor
  · decide
  · decide

/-- Membership in the filtered relation: full-timestamp comparison against
the midnights of the two boundary dates, null timestamps always excluded. -/
theorem mem_main_df (all : List OrderLine) (s e : Int) (r : OrderLine) :
    r ∈ main_df all s e ↔
      r ∈ all ∧ ∃ t, r.order_purchase_timestamp = some t
        ∧ s * 86400 ≤ t ∧ t ≤ e * 86400 := by
  unfold main_df
  rw [List.mem_filter]
  constructor
  · rintro ⟨hmem, hcond⟩
    refine ⟨hmem, ?_⟩
    have hcond2 : (match r.order_purchase_timestamp with
        | some t => decide (s * 86400 ≤ t) && decide (t ≤ e * 86400)
        | none => false) = true := hcond
    cases hts : r.order_purchase_timestamp with
    | none => rw [hts] at hcond2; exact Bool.noConfusion hcond2
    | some t =>
      rw [hts] at hcond2
      simp only [Bool.and_eq_true, decide_eq_true_eq] at hcond2
      exact ⟨t, rfl, hcond2.1, hcond2.2⟩
  · rintro ⟨hmem, t, hts, h1, h2⟩
    refine ⟨hmem, ?_⟩
    show (match r.order_purchase_timestamp with
        | some t => decide (s * 86400 ≤ t) && decide (t ≤ e * 86400)
        | none => false) = true
    rw [hts]
    show (decide (s * 86400 ≤ t) && decide (t ≤ e * 86400)) = true
    rw [decide_eq_true h1, decide_eq_true h2]
    rfl

/-- C1, amended: the Time Window Filter keeps a row iff it lies in the input
relation and its purchase timestamp `t` is non-null with
`midnight(start) ≤ t ≤ midnight(end)`; a line at exactly midnight of the end
date is included, later lines of the end date are not. -/
theorem C1_amended_filter_midnight_window (all : List OrderLine) (s e : Int)
    (r : OrderLine) :
    r ∈ main_df all s e ↔
      r ∈ all ∧ ∃ t, r.order_purchase_timestamp = some t
        ∧ s * 86400 ≤ t ∧ t ≤ e * 86400 :=
  mem_main_df all s e r

/-- C2, counterexample: a row with a null purchase timestamp is dropped by
the Time Window Filter (both `NaT` comparisons are `False`), so it is absent
from the filtered row set and from the category and state groupings computed
on it — contrary to the claim that it stays in the overall row set. -/
theorem C2_counterexample_null_ts_dropped :
    rowNullTs ∉ main_df [rowNullTs] 0 100
    ∧ create_sum_order_items_df (main_df [rowNullTs] 0 100) = []
    ∧ create_bystate_df (main_df [rowNullTs] 0 100) = [] := by
  refine ⟨?_, ?_, ?_⟩ <;> decide

/-- C2, amended: a null-timestamp row never survives the Time Window Filter;
the category, state and RFM-customer groupings themselves ignore the
timestamp column, so when such a row is present in a relation handed directly
to them it is still counted there (nulling every timestamp changes neither
the category ranking, nor the state distribution, nor the set of RFM
customers). -/
theorem C2_amended_null_ts_excluded_by_filter (all df : List OrderLine)
    (orders : List OrderRow) (s e : Int) (r : OrderLine)
    (h : r.order_purchase_timestamp = none) :
    r ∉ main_df all s e
    ∧ create_sum_order_items_df (clearTs df) = create_sum_order_items_df df
    ∧ create_bystate_df (clearTs df) = create_bystate_df df
    ∧ (create_rfm_df (clearTs df) orders).1.map (fun m => m.customer_id)
        = (create_rfm_df df orders).1.map (fun m => m.customer_id) := by
  refine ⟨?_, ?_, ?_, ?_⟩
  · intro hmem
    rcases (mem_main_df all s e r).mp hmem with ⟨_, t, hts, _, _⟩
    rw [h] at hts
    exact Option.noConfusion hts
  · unfold create_sum_order_items_df
    rw [clearTs_filterMap_cat]
    congr 1
    apply List.map_congr_left
    intro c _
    rw [clearTs_catRows_length]
  · unfold create_bystate_df
    rw [clearTs_map_state]
    apply List.map_congr_left
    intro st _
    rw [clearTs_stateRows_ids]
  · rw [rfm_customer_ids, rfm_customer_ids, clearTs_map_customer]

/-- C2, witness for the amended statement at a concrete null-timestamp row. -/
theorem C2_witness :
    rowNullTs ∉ main_df [rowNullTs] 0 100
    ∧ create_sum_order_items_df (clearTs dfTie) = create_sum_order_items_df dfTie
    ∧ create_bystate_df (clearTs dfTie) = create_bystate_df dfTie
    ∧ (create_rfm_df (clearTs dfTie) orders6).1.map (fun m => m.customer_id)
        = (create_rfm_df dfTie orders6).1.map (fun m => m.customer_id) :=
  C2_amended_null_ts_excluded_by_filter [rowNullTs] dfTie orders6 0 100 rowNullTs rfl

/-- C4, counterexample: a row whose category is null is dropped by `groupby`,
so it forms no bucket and the counts sum to 0 while the filtered relation has
1 row — contrary to both halves of the claim. -/
theorem C4_counterexample_null_category_dropped :
    create_sum_order_items_df [rowNullCat] = []
    ∧ ([rowNullCat] : List OrderLine).length = 1 := by
  constructor
  · decide
  · decide

/-- C4, amended: rows with a null category are dropped from the Category
Ranking, and the per-category line counts sum to the number of rows of the
input relation whose category is non-null. -/
theorem C4_amended_sum_counts (df : List OrderLine) :
    ((create_sum_order_items_df df).map (fun m => m.order_id)).sum
      = (df.filter (fun r => r.product_category_name_english.isSome)).length := by
  unfold create_sum_order_items_df
  have hperm := (List.perm_insertionSort catDesc
    ((sortedKeys (df.filterMap (fun r => r.product_category_name_english))).map
      (fun c => { product_category_name_english := c
                  order_id := (catRows df c).length }))).map (fun m => m.order_id)
  rw [hperm.sum_eq, List.map_map]
  have hkeys := sum_keys_counts df
    (sortedKeys (df.filterMap (fun r => r.product_category_name_english)))
    (sortedKeys_nodup _)
  refine hkeys.trans ?_
  congr 1
  apply List.filter_congr
  intro r hr
  show (match r.product_category_name_english with
      | some c => decide (c ∈ sortedKeys (df.filterMap
          (fun x => x.product_category_name_english)))
      | none => false)
    = r.product_category_name_english.isSome
  cases hc : r.product_category_name_english with
  | none => rfl
  | some c =>
    have : c ∈ sortedKeys (df.filterMap (fun x => x.product_category_name_english)) :=
      mem_sortedKeys.mpr (List.mem_filterMap.mpr ⟨r, hr, hc⟩)
    simp [this]

/-! ## Helper lemmas: closed forms for the Daily Series -/

theorem create_daily_eq (df : List OrderLine) (dmin dmax : Int)
    (h1 : (days df).min? = some dmin) (h2 : (days df).max? = some dmax) :
    create_daily_orders_df df = (rangeInt dmin dmax).map (fun d =>
      { order_purchase_timestamp := d
        order_count := ((dayBucket df d).map (fun r => r.order_id)).dedup.length
        revenue := ((dayBucket df d).map (fun r => r.price)).sum }) := by
  unfold create_daily_orders_df
  rw [h1, h2]

theorem create_daily_nil (df : List OrderLine) (h1 : (days df).min? = none) :
    create_daily_orders_df df = [] := by
  unfold create_daily_orders_df
  rw [h1]

/-- C3, counterexample: with activity only on days 0 and 2, the Daily Series
still emits a row dated day 1 with `order_count` 0 — `resample('D')`
synthesizes zero-activity gap days, contrary to the claim. -/
theorem C3_counterexample_gap_day_synthesized :
    (∃ m ∈ create_daily_orders_df dfGap,
        m.order_purchase_timestamp = 1 ∧ m.order_count = 0)
    ∧ ∀ r ∈ dfGap, r.order_purchase_timestamp.map dayOf ≠ some 1 := by
  constructor
  · decide
  · decide

/-- C3, amended: the Daily Series emits a strictly increasing sequence of
days, and a day appears iff it lies between some activity day below it and
some activity day above it (over rows with non-null timestamps) — i.e. one
row per day of the closed interval from the earliest to the latest activity
day, zero-activity gap days included. -/
theorem C3_amended_daily_rows_fill_range (df : List OrderLine) (d : Int) :
    List.Pairwise (· < ·)
      ((create_daily_orders_df df).map (fun m => m.order_purchase_timestamp))
    ∧ (d ∈ (create_daily_orders_df df).map (fun m => m.order_purchase_timestamp) ↔
        (∃ x ∈ days df, x ≤ d) ∧ (∃ y ∈ days df, d ≤ y)) := by
  cases hmin : (days df).min? with
  | none =>
    have hnil : days df = [] := min?_eq_none_iff.mp hmin
    rw [create_daily_nil df hmin, hnil]
    simp
  | some dmin =>
    cases hmax : (days df).max? with
    | none =>
      exfalso
      have hnil := max?_eq_none_iff.mp hmax
      have hmem := (min?_spec hmin).1
      rw [hnil] at hmem
      cases hmem
    | some dmax =>
      obtain ⟨hminmem, hminle⟩ := min?_spec hmin
      obtain ⟨hmaxmem, hmaxle⟩ := max?_spec hmax
      rw [create_daily_eq df dmin dmax hmin hmax, List.map_map]
      have hmap : ((rangeInt dmin dmax).map
          ((fun (m : DailyMetric) => m.order_purchase_timestamp) ∘ (fun d =>
            ({ order_purchase_timestamp := d
               order_count := ((dayBucket df d).map (fun r => r.order_id)).dedup.length
               revenue := ((dayBucket df d).map (fun r => r.price)).sum } : DailyMetric))))
          = rangeInt dmin dmax := List.map_id' _
      rw [hmap]
      constructor
      · exact rangeInt_pairwise dmin dmax
      · rw [mem_rangeInt]
        constructor
        · rintro ⟨h1, h2⟩
          exact ⟨⟨dmin, hminmem, h1⟩, ⟨dmax, hmaxmem, h2⟩⟩
        · rintro ⟨⟨x, hx, hxd⟩, ⟨y, hy, hyd⟩⟩
          exact ⟨le_trans (hminle x hx) hxd, le_trans hyd (hmaxle y hy)⟩

/-- C5, counterexample: on an input whose tied categories were first observed
in the order "b", "a", the code's ranking differs from the spec-worded
ranking that breaks ties by first observation: `groupby` has already
reordered the keys alphabetically before the count sort. -/
theorem C5_counterexample_tie_order :
    create_sum_order_items_df dfTie ≠ specCategoryRanking dfTie := by
  decide

/-- C5, amended: the Category Ranking carries one row per distinct non-null
category, sorted by descending (non-strict) line count; the relative order of
categories with equal counts is implementation-defined — `groupby` reorders
the keys alphabetically before the sort and pandas leaves the default sort
kernel's tie behaviour unspecified — and in particular is not the
first-observation order. -/
theorem C5_amended_descending_by_count (df : List OrderLine) :
    List.Pairwise (fun x y : CategoryMetric => y.order_id ≤ x.order_id)
      (create_sum_order_items_df df)
    ∧ List.Pairwise (fun x y : CategoryMetric =>
        x.product_category_name_english ≠ y.product_category_name_english)
      (create_sum_order_items_df df) := by
  unfold create_sum_order_items_df
  constructor
  · exact List.sorted_insertionSort catDesc _
  · have hkey : List.Pairwise (fun x y : CategoryMetric =>
        x.product_category_name_english ≠ y.product_category_name_english)
        ((sortedKeys (df.filterMap (fun r => r.product_category_name_english))).map
          (fun c => { product_category_name_english := c
                      order_id := (catRows df c).length })) :=
      List.Pairwise.map _ (fun _ _ h => h)
        ((sortedKeys_strict _).imp (fun h => ne_of_lt h))
    have hsymm : Symmetric (fun x y : CategoryMetric =>
        x.product_category_name_english ≠ y.product_category_name_english) :=
      fun _ _ h => Ne.symm h
    exact ((List.perm_insertionSort catDesc _).pairwise_iff @hsymm).mpr hkey

/-- C6, confirmed: every emitted RFM record's `max_order_timestamp` is the
max of the customer's non-null timestamps, and its `recency` is the floored
day difference between the max timestamp of the (unfiltered) orders relation
argument and that last purchase — null exactly when either side is null, and
never clamped.  The reference point depends only on the orders argument, so
the filter window applied to the fact relation cannot change it. -/
theorem C6_confirmed_recency (df : List OrderLine) (orders : List OrderRow)
    (m : RfmRecord) (h : m ∈ (create_rfm_df df orders).1) :
    m.max_order_timestamp
      = ((custRows df m.customer_id).filterMap
          (fun r => r.order_purchase_timestamp)).max?
    ∧ m.recency
      = match (orders.filterMap (fun r => r.order_purchase_timestamp)).max?,
              m.max_order_timestamp with
        | some g, some l => some (Int.fdiv (g - l) 86400)
        | _, _ => none := by
  have h2 : m ∈ (sortedKeys (df.map (fun r => r.customer_id))).map (fun c =>
      ({ customer_id := c
         max_order_timestamp := custLast df c
         frequency := (((custRows df c).map (fun r => r.order_id)).dedup).length
         monetary := ((custRows df c).map (fun r => r.price)).sum
         recency := match recentDate orders, custLast df c with
           | some g, some l => some (Int.fdiv (g - l) 86400)
           | _, _ => none } : RfmRecord)) := h
  rcases List.mem_map.mp h2 with ⟨c, hc, rfl⟩
  constructor
  · rfl
  · show (match recentDate orders, custLast df c with
        | some g, some l => some (Int.fdiv (g - l) 86400)
        | _, _ => none)
      = match (orders.filterMap (fun r => r.order_purchase_timestamp)).max?,
              custLast df c with
        | some g, some l => some (Int.fdiv (g - l) 86400)
        | _, _ => none
    rw [recentDate_eq]

/-- C6, witness: concrete record whose last purchase is newer than the
orders-table maximum; the recency is the negative floored difference. -/
theorem C6_witness :
    rfm6rec ∈ (create_rfm_df df6 orders6).1 ∧ rfm6rec.recency = some (-2) := by
  refine ⟨by decide, ?_⟩
  have h := C6_confirmed_recency df6 orders6 rfm6rec (by decide)
  rw [h.2]
  decide

/-- C7, counterexample: an order id whose lines fall on two different days is
counted once per day by the Daily Series, so the summed `order_count` is 2
while the relation has a single distinct order id. -/
theorem C7_counterexample_order_on_two_days :
    ((create_daily_orders_df dfTwoDays).map (fun m => m.order_count)).sum = 2
    ∧ ((dfTwoDays.map (fun r => r.order_id)).dedup).length = 1 := by
  constructor
  · decide
  · decide

/-- C7, amended: when every row has a non-null timestamp (as every output of
the Time Window Filter does) and rows sharing an order id share the same
calendar day, the summed per-day unique-order counts equal the number of
distinct order ids of the relation. -/
theorem C7_amended_sum_order_counts (df : List OrderLine)
    (hts : ∀ r ∈ df, r.order_purchase_timestamp.isSome = true)
    (hfd : ∀ r1 ∈ df, ∀ r2 ∈ df, r1.order_id = r2.order_id →
      r1.order_purchase_timestamp.map dayOf = r2.order_purchase_timestamp.map dayOf) :
    ((create_daily_orders_df df).map (fun m => m.order_count)).sum
      = ((df.map (fun r => r.order_id)).dedup).length := by
  cases hmin : (days df).min? with
  | none =>
    have hnil : days df = [] := min?_eq_none_iff.mp hmin
    have hdf : df = [] := by
      cases hd : df with
      | nil => rfl
      | cons r rs =>
        exfalso
        have h1 := hts r (by rw [hd]; exact List.mem_cons_self r rs)
        cases hts2 : r.order_purchase_timestamp with
        | none => rw [hts2] at h1; exact Bool.noConfusion h1
        | some t =>
          have hmem : dayOf t ∈ days df :=
            mem_days.mpr ⟨r, by rw [hd]; exact List.mem_cons_self r rs,
              by rw [hts2]; rfl⟩
          rw [hnil] at hmem
          cases hmem
    subst hdf
    rw [create_daily_nil [] hmin]
    rfl
  | some dmin =>
    cases hmax : (days df).max? with
    | none =>
      exfalso
      have hnil := max?_eq_none_iff.mp hmax
      have hmem := (min?_spec hmin).1
      rw [hnil] at hmem
      cases hmem
    | some dmax =>
      obtain ⟨hminmem, hminle⟩ := min?_spec hmin
      obtain ⟨hmaxmem, hmaxle⟩ := max?_spec hmax
      rw [create_daily_eq df dmin dmax hmin hmax, List.map_map]
      have hcomp : ((rangeInt dmin dmax).map
          ((fun (m : DailyMetric) => m.order_count) ∘ (fun d =>
            ({ order_purchase_timestamp := d
               order_count := ((dayBucket df d).map (fun r => r.order_id)).dedup.length
               revenue := ((dayBucket df d).map (fun r => r.price)).sum } : DailyMetric))))
          = (rangeInt dmin dmax).map
              (fun d => ((dayBucket df d).map (fun r => r.order_id)).toFinset.card) := by
        apply List.map_congr_left
        intro d2 _
        exact (List.card_toFinset _).symm
      rw [hcomp]
      have hnodup : (rangeInt dmin dmax).Nodup :=
        (rangeInt_pairwise dmin dmax).imp (fun h => ne_of_lt h)
      rw [← List.sum_toFinset
        (fun d => ((dayBucket df d).map (fun r => r.order_id)).toFinset.card) hnodup]
      have hdisj : ∀ d1 ∈ (rangeInt dmin dmax).toFinset,
          ∀ d2 ∈ (rangeInt dmin dmax).toFinset, d1 ≠ d2 →
          Disjoint (((dayBucket df d1).map (fun r => r.order_id)).toFinset)
            (((dayBucket df d2).map (fun r => r.order_id)).toFinset) := by
        intro d1 _ d2 _ hne
        rw [Finset.disjoint_left]
        intro x hx1 hx2
        rw [List.mem_toFinset, List.mem_map] at hx1 hx2
        obtain ⟨r1, hr1, hx1e⟩ := hx1
        obtain ⟨r2, hr2, hx2e⟩ := hx2
        obtain ⟨hr1df, hr1d⟩ := mem_dayBucket.mp hr1
        obtain ⟨hr2df, hr2d⟩ := mem_dayBucket.mp hr2
        have heq := hfd r1 hr1df r2 hr2df (by rw [hx1e, hx2e])
        rw [hr1d, hr2d] at heq
        exact hne (Option.some.inj heq)
      have hbi : ((rangeInt dmin dmax).toFinset.biUnion
          (fun d => ((dayBucket df d).map (fun r => r.order_id)).toFinset))
          = (df.map (fun r => r.order_id)).toFinset := by
        apply Finset.ext
        intro x
        simp only [Finset.mem_biUnion, List.mem_toFinset, List.mem_map]
        constructor
        · rintro ⟨d2, hd2, r, hr, rfl⟩
          exact ⟨r, (mem_dayBucket.mp hr).1, rfl⟩
        · rintro ⟨r, hr, rfl⟩
          have h1 := hts r hr
          cases hts2 : r.order_purchase_timestamp with
          | none => rw [hts2] at h1; exact Bool.noConfusion h1
          | some t =>
            have hdmem : dayOf t ∈ days df :=
              mem_days.mpr ⟨r, hr, by rw [hts2]; rfl⟩
            refine ⟨dayOf t, ?_, r, mem_dayBucket.mpr ⟨hr, by rw [hts2]; rfl⟩, rfl⟩
            rw [mem_rangeInt]
            exact ⟨hminle _ hdmem, hmaxle _ hdmem⟩
      rw [← List.card_toFinset, ← hbi, Finset.card_biUnion hdisj]

/-- C7, witness: three lines, order "A" twice on day 0 and order "B" once on
day 1; the summed daily unique-order counts equal the 2 distinct order ids. -/
theorem C7_witness :
    ((create_daily_orders_df df7).map (fun m => m.order_count)).sum
      = ((df7.map (fun r => r.order_id)).dedup).length :=
  C7_amended_sum_order_counts df7 (by decide) (by decide)

/-- C8, counterexample: with an empty orders relation the RFM transform does
not abort: it emits one record per customer (here one), with a null recency. -/
theorem C8_counterexample_empty_orders_no_abort :
    (create_rfm_df df6 ([] : List OrderRow)).1
      = [{ customer_id := "c1", max_order_timestamp := some 259200, frequency := 1,
           monetary := 10, recency := none }] := by
  decide

/-- C8, amended: an empty orders relation is not a fatal precondition: the
`NaT` maximum flows through, every emitted record has a null `recency`, and
the output is empty only when the fact relation itself is empty. -/
theorem C8_amended_empty_orders_null_recency (df : List OrderLine) :
    (∀ m ∈ (create_rfm_df df ([] : List OrderRow)).1, m.recency = none)
    ∧ ((create_rfm_df df ([] : List OrderRow)).1 = [] ↔ df = []) := by
  constructor
  · intro m hm
    have hm2 : m ∈ (sortedKeys (df.map (fun r => r.customer_id))).map (fun c =>
        ({ customer_id := c
           max_order_timestamp := custLast df c
           frequency := (((custRows df c).map (fun r => r.order_id)).dedup).length
           monetary := ((custRows df c).map (fun r => r.price)).sum
           recency := match recentDate ([] : List OrderRow), custLast df c with
             | some g, some l => some (Int.fdiv (g - l) 86400)
             | _, _ => none } : RfmRecord)) := hm
    rcases List.mem_map.mp hm2 with ⟨c, hc, rfl⟩
    rfl
  · constructor
    · intro hemp
      have h1 := rfm_customer_ids df ([] : List OrderRow)
      rw [hemp] at h1
      cases hd : df with
      | nil => rfl
      | cons r rs =>
        exfalso
        have hmem : r.customer_id ∈ sortedKeys (df.map (fun x => x.customer_id)) :=
          mem_sortedKeys.mpr (List.mem_map.mpr
            ⟨r, by rw [hd]; exact List.mem_cons_self r rs, rfl⟩)
        rw [← h1] at hmem
        simp at hmem
    · intro hdf
      subst hdf
      rfl

/-- C8, witness for the amended statement at a concrete one-customer input. -/
theorem C8_witness :
    (∀ m ∈ (create_rfm_df df6 ([] : List OrderRow)).1, m.recency = none)
    ∧ ((create_rfm_df df6 ([] : List OrderRow)).1 = [] ↔ df6 = []) :=
  C8_amended_empty_orders_null_recency df6

/-- C9, confirmed at the level of relation values: the transforms are plain
functions of the relations they receive, and the orders relation handed back
by the RFM transform — whose line 45 writes the re-parsed timestamp column
back onto the caller's relation — equals the relation passed in, because
re-parsing the already-parsed column is the identity. -/
theorem C9_confirmed_no_mutation (df : List OrderLine) (orders : List OrderRow) :
    (create_rfm_df df orders).2 = orders := by
  show ordersParsed orders = orders
  exact ordersParsed_eq orders

/-- C10, confirmed: the Regional Distribution emits exactly the distinct
states of the input, in strictly ascending state-code order. -/
theorem C10_confirmed_bystate_sorted (df : List OrderLine) :
    List.Pairwise (fun a b : StateMetric => a.customer_state < b.customer_state)
      (create_bystate_df df)
    ∧ ∀ s : String, (∃ m ∈ create_bystate_df df, m.customer_state = s) ↔
        s ∈ df.map (fun r => r.customer_state) := by
  constructor
  · unfold create_bystate_df
    exact List.Pairwise.map _ (fun _ _ h => h) (sortedKeys_strict _)
  · intro s
    unfold create_bystate_df
    constructor
    · rintro ⟨m, hm, rfl⟩
      rcases List.mem_map.mp hm with ⟨st, hst, rfl⟩
      exact mem_sortedKeys.mp hst
    · intro hs
      exact ⟨_, List.mem_map.mpr ⟨s, mem_sortedKeys.mpr hs, rfl⟩, rfl⟩
